import Mathlib

/-!
# mcnp2cad: the metadata registry of `GeometryContext` and the option handling of `main`

A shallow embedding of `src/GeometryContext.hpp` (the name builders, `NamedGroup`,
`NamedEntity`, `getNamedGroup`, `setMaterial`, `setImportances`) and of the option
processing of `main` in `src/mcnp2cad.cpp`, followed by the properties proved about them.

Conventions of the embedding:
* an `iBase_EntityHandle` (an opaque pointer) is its address, a natural number, `0` being NULL;
* a `std::vector` is a `List`, a `std::map` is an association list kept in ascending key order;
* mutation of an object is a function from the old value of the object to the new one;
* a `double` is a value of an abstract type that comes with the operations the code applies.
-/

namespace GeometryContext

/-! ## Handles and collections -/

/-- An entity handle is an opaque pointer owned by the kernel: its address, `0` for NULL. -/
abbrev iBase_EntityHandle := Nat

/-- The collection type `std::vector<iBase_EntityHandle>`. -/
abbrev entity_collection_t := List iBase_EntityHandle

/-- The call `std::find( entities.begin(), entities.end(), v )`, as an offset from `begin()`:
the position of the first element equal to `v`, and the size of the vector (that is `end()`)
when no element is equal to `v`. -/
def std_find : entity_collection_t → iBase_EntityHandle → Nat
  | [], _ => 0
  | x :: xs, v => if x = v then 0 else std_find xs v + 1

/-! ## `NamedGroup` -/

/-- Class `NamedGroup`: a name and a vector of entity handles. -/
structure NamedGroup where
  name : String
  entities : entity_collection_t
deriving DecidableEq, Repr

namespace NamedGroup

/-- Constructor `NamedGroup( std::string name_p )`: the given name, no entity. -/
def new (name_p : String) : NamedGroup :=
  { name := name_p, entities := [] }

/-- Accessor `getName()`. -/
def getName (g : NamedGroup) : String := g.name

/-- Accessor `getEntities()`. -/
def getEntities (g : NamedGroup) : entity_collection_t := g.entities

/-- Method `add`: `entities.push_back(new_handle)`. -/
def add (g : NamedGroup) (new_handle : iBase_EntityHandle) : NamedGroup :=
  { g with entities := g.entities ++ [new_handle] }

/-- Method `update`: look `old_h` up with `std::find`; when it is found, overwrite that
element with `new_h` if `new_h` is non-null, and erase that element otherwise. -/
def update (g : NamedGroup) (old_h new_h : iBase_EntityHandle) : NamedGroup :=
  let i := std_find g.entities old_h
  if i ≠ g.entities.length then
    if new_h ≠ 0 then
      { g with entities := g.entities.set i new_h }
    else
      { g with entities := g.entities.eraseIdx i }
  else g

/-- Method `contains`: `std::find( ... ) != entities.end()`. -/
def contains (g : NamedGroup) (handle : iBase_EntityHandle) : Bool :=
  decide (std_find g.entities handle ≠ g.entities.length)

end NamedGroup

/-! ## Streams and renderings -/

/-- The classification `isspace` of the C locale: space, `\t`, `\n`, `\v`, `\f`, `\r`. -/
def isspace (c : Char) : Bool :=
  c = ' ' || c = '\t' || c = '\n' || c = '\x0b' || c = '\x0c' || c = '\r'

/-- The statement `formatter >> ret` on a `std::stringstream` whose buffer is `buf` and from
which nothing was read yet: leading whitespace is skipped, then characters are taken up to
the next whitespace character or the end of the buffer. -/
def extract (buf : String) : String :=
  String.mk ((buf.data.dropWhile isspace).takeWhile (fun c => !isspace c))

/-- A string without whitespace characters. -/
def no_space (s : String) : Bool :=
  s.data.all (fun c => !isspace c)

/-- The insertion `formatter << i` of an `int`: its decimal rendering. -/
def put_int (i : Int) : String := toString i

/-- The value of a decimal digit character. -/
def digit_value (c : Char) : Nat := c.toNat - 48

/-- Reading a string of decimal digits back as a number. -/
def decode_decimal (s : List Char) : Nat :=
  s.foldl (fun a c => a * 10 + digit_value c) 0

/-- The operations on a `double` that the code applies, over an abstract carrier `D`:
the test `rho <= 0`, the negation `-rho`, the rendering of `sprintf( .., "%E", rho )`
and the rendering of `formatter << rho`. -/
structure DoubleOps (D : Type) where
  le_zero : D → Bool
  neg : D → D
  sprintf_E : D → String
  put_double : D → String

/-- Two values of type `double`, `2.5` and `-2.5`, to evaluate the code on. -/
inductive SampleDouble where
  | pos_2_5
  | neg_2_5
deriving DecidableEq, Repr

/-- The operations of C on the two sample values. -/
def sampleOps : DoubleOps SampleDouble where
  le_zero := fun d => match d with
    | .pos_2_5 => false
    | .neg_2_5 => true
  neg := fun d => match d with
    | .pos_2_5 => .neg_2_5
    | .neg_2_5 => .pos_2_5
  sprintf_E := fun d => match d with
    | .pos_2_5 => "2.500000E+00"
    | .neg_2_5 => "-2.500000E+00"
  put_double := fun d => match d with
    | .pos_2_5 => "2.5"
    | .neg_2_5 => "-2.5"

/-! ## Options -/

/-- The global `Gopt`, a `program_option_struct`: the fields that `main` initialises, apart
from `specific_tolerance`, which the code modelled here never writes. -/
structure program_option_struct where
  verbose : Bool
  debug : Bool
  infinite_lattice_extra_effort : Bool
  tag_materials : Bool
  tag_importances : Bool
  tag_cell_IDs : Bool
  make_graveyard : Bool
  imprint_geom : Bool
  merge_geom : Bool
  input_file : String
  output_file : String
  igeom_init_options : String
  override_tolerance : Bool
  uwuw_names : Bool
deriving DecidableEq, Repr

/-- Modelled from the spec: the macro `OPT_DEBUG` comes from `options.hpp`, which is not among
the sources; it is the `debug` switch of the configuration ("enable trace output"). -/
def OPT_DEBUG (Gopt : program_option_struct) : Bool := Gopt.debug

/-! ## Name builders -/

/-- Method `materialName( int mat, double rho )`. -/
def materialName {D : Type} (Gopt : program_option_struct) (ops : DoubleOps D)
    (mat : Int) (rho : D) : String :=
  let formatter : String :=
    if Gopt.uwuw_names then
      let mass_density := ops.le_zero rho
      let rho := if ops.le_zero rho then ops.neg rho else rho
      let rho_formatted := ops.sprintf_E rho
      let formatter := "mat:m" ++ put_int mat
      if mass_density then
        formatter ++ "/rho:" ++ rho_formatted
      else
        formatter ++ "/atom:" ++ rho_formatted
    else
      "mat_" ++ put_int mat ++ "_rho_" ++ ops.put_double rho
  extract formatter

/-- Class `NamedEntity`: one handle and one name. -/
structure NamedEntity where
  handle : iBase_EntityHandle
  name : String
deriving DecidableEq, Repr

namespace NamedEntity

/-- Constructor `NamedEntity( handle_p, name_p )`. -/
def new (handle_p : iBase_EntityHandle) (name_p : String) : NamedEntity :=
  { handle := handle_p, name := name_p }

/-- Accessor `getName()`. -/
def getName (e : NamedEntity) : String := e.name

/-- Accessor `getHandle()`. -/
def getHandle (e : NamedEntity) : iBase_EntityHandle := e.handle

/-- Method `setHandle`: `handle = new_h`. -/
def setHandle (e : NamedEntity) (new_h : iBase_EntityHandle) : NamedEntity :=
  { e with handle := new_h }

/-- Static method `makeCellIDName( h, ident )`: an entity built with the default (empty) name,
whose name is then read back from a stream holding `"MCNP_ID_"` and `ident`. -/
def makeCellIDName (h : iBase_EntityHandle) (ident : Int) : NamedEntity :=
  let e := NamedEntity.new h ""
  let formatter := "MCNP_ID_" ++ put_int ident
  { e with name := extract formatter }

end NamedEntity

/-! ## `std::map` -/

/-- A `std::map<K,V>`: its entries in iteration order, which is ascending key order. -/
abbrev std_map (κ ν : Type) := List (κ × ν)

namespace std_map

variable {κ ν : Type}

/-- The representation invariant of a `std::map`: keys strictly ascending. -/
def WF [LinearOrder κ] (m : std_map κ ν) : Prop :=
  m.Pairwise (fun a b => a.1 < b.1)

instance decidableWF [LinearOrder κ] (m : std_map κ ν) : Decidable (WF m) := by
  unfold WF
  infer_instance

/-- The call `m.find(k)`: the mapped value, `none` standing for `m.end()`. -/
def find [DecidableEq κ] : std_map κ ν → κ → Option ν
  | [], _ => none
  | (k', v) :: m, k => if k' = k then some v else find m k

/-- The assignment `m[k] = v`: overwrites the entry of `k`, or inserts one at its place
in key order. -/
def assign [LinearOrder κ] : std_map κ ν → κ → ν → std_map κ ν
  | [], k, v => [(k, v)]
  | (k', v') :: m, k, v =>
    if k < k' then (k, v) :: (k', v') :: m
    else if k = k' then (k, v) :: m
    else (k', v') :: assign m k v

/-- The read `m[k]`: the mapped value; when `k` has no entry, one holding the
value-initialised `dflt` is inserted first. -/
def index [DecidableEq κ] [LinearOrder κ] (dflt : ν) (m : std_map κ ν) (k : κ) : ν × std_map κ ν :=
  match find m k with
  | some v => (v, m)
  | none => (dflt, assign m k dflt)

/-- The call `m.size()`. -/
def size (m : std_map κ ν) : Nat := m.length

end std_map

/-! ## The group registry -/

/-- The part of a `GeometryContext` object that `getNamedGroup` works on. A `NamedGroup*` is
an address: `0` is the null pointer and address `a + 1` is the object `heap[a]`, the objects
being those created by `new NamedGroup`, in creation order. -/
structure State where
  heap : List NamedGroup
  named_groups : std_map String Nat
deriving DecidableEq, Repr

/-- The object a `NamedGroup*` points to, if any. -/
def State.deref (ctx : State) (p : Nat) : Option NamedGroup :=
  if p = 0 then none else ctx.heap[p - 1]?

/-- Method `getNamedGroup( name )`; the debug message is left out. The result is the pointer
returned and the context afterwards. -/
def getNamedGroup (ctx : State) (name : String) : Nat × State :=
  let ctx1 : State :=
    if std_map.find ctx.named_groups name = none then
      { heap := ctx.heap ++ [NamedGroup.new name],
        named_groups := std_map.assign ctx.named_groups name (ctx.heap.length + 1) }
    else ctx
  let r := std_map.index 0 ctx1.named_groups name
  (r.1, { ctx1 with named_groups := r.2 })

/-! ## Tag requests -/

/-- Method `setMaterial`. The method `addToVolumeGroup` it calls is declared in the header
and defined elsewhere: it is a parameter, acting on whatever state `σ` it works on. -/
def setMaterial {D σ : Type} (Gopt : program_option_struct) (ops : DoubleOps D)
    (addToVolumeGroup : iBase_EntityHandle → String → σ → σ)
    (cell : iBase_EntityHandle) (material : Int) (density : D) (s : σ) : σ :=
  if Gopt.tag_materials then
    addToVolumeGroup cell (materialName Gopt ops material density) s
  else s

/-- An `addToVolumeGroup` that only records the request it receives, cell and group name,
at the end of a log. -/
def record_request (cell : iBase_EntityHandle) (groupname : String)
    (log : List (iBase_EntityHandle × String)) : List (iBase_EntityHandle × String) :=
  log ++ [(cell, groupname)]

end GeometryContext

/-! ## `main` (src/mcnp2cad.cpp) -/

namespace Main

open GeometryContext

/-- The option values `main` sets before it parses the command line. The macro
`OPT_DEFAULT_OUTPUT_FILENAME` comes from `options.hpp`, which is not among the sources: its
value is a parameter. -/
def default_options (OPT_DEFAULT_OUTPUT_FILENAME : String) : program_option_struct where
  verbose := false
  debug := false
  infinite_lattice_extra_effort := false
  tag_materials := true
  tag_importances := true
  tag_cell_IDs := true
  make_graveyard := true
  imprint_geom := true
  merge_geom := true
  input_file := ""
  output_file := OPT_DEFAULT_OUTPUT_FILENAME
  igeom_init_options := ""
  override_tolerance := false
  uwuw_names := false

/-- A command line, option by option: for an option without value, whether it is given. -/
structure CommandLine where
  extra_effort : Bool
  verbose : Bool
  debug : Bool
  Di : Bool
  Do : Bool
  output : Option String
  tol : Bool
  skip_mats : Bool
  skip_imps : Bool
  skip_nums : Bool
  skip_merge : Bool
  skip_imprint : Bool
  skip_graveyard : Bool
  uwuw_names : Bool
  input_file : String
deriving DecidableEq, Repr

/-- The command line that gives the input file and no option. -/
def no_options (input_file : String) : CommandLine where
  extra_effort := false
  verbose := false
  debug := false
  Di := false
  Do := false
  output := none
  tol := false
  skip_mats := false
  skip_imps := false
  skip_nums := false
  skip_merge := false
  skip_imprint := false
  skip_graveyard := false
  uwuw_names := false
  input_file := input_file

/-- The variables the registered options point to: `Gopt` and the two local flags. -/
structure Parsed where
  Gopt : program_option_struct
  DiFlag : Bool
  DoFlag : Bool
deriving DecidableEq, Repr

/-- Modelled from the spec: class `ProgOptions` is not among the sources. The configuration
is a set of boolean switches; following the registrations `po.addOpt<void>( .., &flag )` of
`main` and their help texts, an option that is given stores `true` in its flag, or `false`
when it is registered with `po.store_false`, and an option that is not given leaves its
flag as it is. -/
def parseCommandLine (cl : CommandLine) (s : Parsed) : Parsed :=
  { Gopt :=
      { s.Gopt with
        infinite_lattice_extra_effort :=
          if cl.extra_effort then true else s.Gopt.infinite_lattice_extra_effort
        verbose := if cl.verbose then true else s.Gopt.verbose
        debug := if cl.debug then true else s.Gopt.debug
        output_file := match cl.output with
          | some f => f
          | none => s.Gopt.output_file
        tag_materials := if cl.skip_mats then false else s.Gopt.tag_materials
        tag_importances := if cl.skip_imps then false else s.Gopt.tag_importances
        tag_cell_IDs := if cl.skip_nums then false else s.Gopt.tag_cell_IDs
        merge_geom := if cl.skip_merge then false else s.Gopt.merge_geom
        imprint_geom := if cl.skip_imprint then false else s.Gopt.imprint_geom
        make_graveyard := if cl.skip_graveyard then false else s.Gopt.make_graveyard
        uwuw_names := if cl.uwuw_names then true else s.Gopt.uwuw_names
        input_file := cl.input_file }
    DiFlag := if cl.Di then true else s.DiFlag
    DoFlag := if cl.Do then true else s.DoFlag }

/-- What a run of `main` depends on besides the command line: the outcome of the test
`specific_tolerance <= 0.0 || specific_tolerance > .1` on the tolerance read, the rendering
of that tolerance, and whether the input file could be opened. -/
structure Outside where
  tol_unusual : Bool
  tol_text : String
  input_is_open : Bool
deriving DecidableEq, Repr

/-- What is observed of a run of `main`: the lines written to `std::cerr`; the value of
`OPT_DEBUG` when `InputDeck::build` is called; its value at the test that guards
`debugSurfaceDistances`; the value of `Gopt` when `createGeometry` is called; and the
value returned. A step that is not reached is `none`. -/
structure Run where
  cerr : List String
  debug_at_build : Option Bool
  debug_at_surfaces : Option Bool
  Gopt_at_createGeometry : Option program_option_struct
  status : Nat
deriving DecidableEq, Repr

/-- The warning of the merge-without-imprint check. -/
def merge_warning : String :=
  "Warning: cannot merge geometry without imprinting, will skip merge too."

/-- The body of `main` after `po.parseCommandLine`, the blocks under `USING_CGMA` left out;
the calls `InputDeck::build`, `debugSurfaceDistances` and `iGeom_newGeom` are taken to
return normally. -/
def main_after_parse (p : Parsed) (tol_set : Bool) (out : Outside) : Run :=
  let Gopt := p.Gopt
  let DiFlag := p.DiFlag
  let DoFlag := p.DoFlag
  -- if( po.numOptSet( "tol,t" ) )
  let Gopt := if tol_set then { Gopt with override_tolerance := true } else Gopt
  let cerr : List String :=
    if tol_set && out.tol_unusual then
      ["Warning: you seem to have specified an unusual tolerance (" ++ out.tol_text ++ ")."]
    else []
  -- if( Gopt.merge_geom && !Gopt.imprint_geom )
  let cerr := if Gopt.merge_geom && !Gopt.imprint_geom then cerr ++ [merge_warning] else cerr
  -- if( !input.is_open() )
  if !out.input_is_open then
    { cerr := cerr ++ ["Error: couldn't open file \"" ++ Gopt.input_file ++ "\""]
      debug_at_build := none
      debug_at_surfaces := none
      Gopt_at_createGeometry := none
      status := 1 }
  else
    -- if( DiFlag && !OPT_DEBUG ) Gopt.debug = true; else DiFlag = false;
    let Gopt1 := if DiFlag && !OPT_DEBUG Gopt then { Gopt with debug := true } else Gopt
    let DiFlag := if DiFlag && !OPT_DEBUG Gopt then DiFlag else false
    -- InputDeck::build(input)
    let debug_at_build := OPT_DEBUG Gopt1
    -- if( DiFlag ) Gopt.debug = false;
    let Gopt2 := if DiFlag then { Gopt1 with debug := false } else Gopt1
    -- if( DoFlag && !OPT_DEBUG ) Gopt.debug = true;
    let Gopt3 := if DoFlag && !OPT_DEBUG Gopt2 then { Gopt2 with debug := true } else Gopt2
    -- if( OPT_DEBUG ) debugSurfaceDistances( deck );
    let debug_at_surfaces := OPT_DEBUG Gopt3
    -- context->createGeometry();
    { cerr := cerr
      debug_at_build := some debug_at_build
      debug_at_surfaces := some debug_at_surfaces
      Gopt_at_createGeometry := some Gopt3
      status := 0 }

/-- Function `main`: defaults, command line, then the rest. -/
def main (OPT_DEFAULT_OUTPUT_FILENAME : String) (cl : CommandLine) (out : Outside) : Run :=
  let p := parseCommandLine cl
    { Gopt := default_options OPT_DEFAULT_OUTPUT_FILENAME, DiFlag := false, DoFlag := false }
  main_after_parse p cl.tol out

end Main

namespace GeometryContext

/-! ## Properties of `std::find` -/

theorem std_find_eq_length_iff (l : entity_collection_t) (v : iBase_EntityHandle) :
    std_find l v = l.length ↔ v ∉ l := by
  induction l with
  | nil => simp [std_find]
  | cons x xs ih =>
    simp only [std_find, List.length_cons, List.mem_cons, not_or]
    by_cases hx : x = v
    · subst hx
      simp
    · have hx2 : ¬ v = x := fun h => hx h.symm
      simp [hx, hx2, ih]

/-- When `v` occurs, `std::find` stops at the first occurrence: the vector splits around it. -/
theorem std_find_split (l : entity_collection_t) (v : iBase_EntityHandle) (h : v ∈ l) :
    ∃ pre post, l = pre ++ v :: post ∧ v ∉ pre ∧ std_find l v = pre.length := by
  induction l with
  | nil => simp at h
  | cons x xs ih =>
    by_cases hx : x = v
    · subst hx
      exact ⟨[], xs, by simp, by simp, by simp [std_find]⟩
    · have hmem : v ∈ xs := by
        rcases List.mem_cons.1 h with h1 | h1
        · exact absurd h1.symm hx
        · exact h1
      obtain ⟨pre, post, h1, h2, h3⟩ := ih hmem
      refine ⟨x :: pre, post, by simp [h1], ?_, by simp [std_find, hx, h3]⟩
      simp only [List.mem_cons, not_or]
      exact ⟨fun h => hx h.symm, h2⟩

theorem contains_iff_mem (g : NamedGroup) (h : iBase_EntityHandle) :
    g.contains h = true ↔ h ∈ g.entities := by
  simp [NamedGroup.contains, std_find_eq_length_iff]

theorem contains_eq_false_iff (g : NamedGroup) (h : iBase_EntityHandle) :
    g.contains h = false ↔ h ∉ g.entities := by
  simp [NamedGroup.contains, std_find_eq_length_iff]

/-- The entity list after `update` when `old_h` is absent. -/
theorem update_entities_of_not_mem (g : NamedGroup) (old_h new_h : iBase_EntityHandle)
    (h : old_h ∉ g.entities) : (g.update old_h new_h).entities = g.entities := by
  have := (std_find_eq_length_iff g.entities old_h).2 h
  simp [NamedGroup.update, this]

/-- The entity list after `update` with a non-null replacement, around the first occurrence. -/
theorem update_entities_replace (g : NamedGroup) (old_h new_h : iBase_EntityHandle)
    (hmem : old_h ∈ g.entities) (hnew : new_h ≠ 0) :
    ∃ pre post, g.entities = pre ++ old_h :: post ∧ old_h ∉ pre ∧
      (g.update old_h new_h).entities = pre ++ new_h :: post := by
  obtain ⟨pre, post, h1, h2, h3⟩ := std_find_split g.entities old_h hmem
  have hne : std_find g.entities old_h ≠ g.entities.length := by
    rw [Ne, std_find_eq_length_iff]; simpa using hmem
  refine ⟨pre, post, h1, h2, ?_⟩
  simp only [NamedGroup.update, hne, hnew, ne_eq, not_false_eq_true, if_true, h3]
  rw [h1]
  simp

/-- The entity list after `update` with a null replacement, around the first occurrence. -/
theorem update_entities_erase (g : NamedGroup) (old_h : iBase_EntityHandle)
    (hmem : old_h ∈ g.entities) :
    ∃ pre post, g.entities = pre ++ old_h :: post ∧ old_h ∉ pre ∧
      (g.update old_h 0).entities = pre ++ post := by
  obtain ⟨pre, post, h1, h2, h3⟩ := std_find_split g.entities old_h hmem
  have hne : std_find g.entities old_h ≠ g.entities.length := by
    rw [Ne, std_find_eq_length_iff]; simpa using hmem
  refine ⟨pre, post, h1, h2, ?_⟩
  simp only [NamedGroup.update, hne, ne_eq, not_false_eq_true, if_true, h3]
  rw [h1, List.eraseIdx_append_of_length_le (le_refl _)]
  simp

theorem update_name (g : NamedGroup) (old_h new_h : iBase_EntityHandle) :
    (g.update old_h new_h).name = g.name := by
  unfold NamedGroup.update
  simp only
  split
  · split <;> rfl
  · rfl

/-! ## `NamedGroup`: what `update` does -/

/-- C2. `update(old_h, new_h)` replaces in place or removes, and does nothing else. The name
is unchanged. If `old_h` does not occur, the list is unchanged. If it occurs and `new_h` is
non-null, the list keeps its length, holds `new_h` at the position of the first occurrence
of `old_h` and is unchanged at every other position. If it occurs and `new_h` is null, the
list is the old one with exactly the first occurrence of `old_h` removed, the other handles
in their order. The first occurrence is the one with no `old_h` before it. -/
theorem NamedGroup.update_replaces_or_removes (g : NamedGroup)
    (old_h new_h : iBase_EntityHandle) :
    (g.update old_h new_h).getName = g.getName ∧
    (old_h ∉ g.entities → (g.update old_h new_h).entities = g.entities) ∧
    (old_h ∈ g.entities → new_h ≠ 0 →
      ∃ pre post, g.entities = pre ++ old_h :: post ∧ old_h ∉ pre ∧
        (g.update old_h new_h).entities = pre ++ new_h :: post ∧
        (g.update old_h new_h).entities.length = g.entities.length ∧
        (g.update old_h new_h).entities[pre.length]? = some new_h ∧
        ∀ j, j ≠ pre.length → (g.update old_h new_h).entities[j]? = g.entities[j]?) ∧
    (old_h ∈ g.entities → new_h = 0 →
      ∃ pre post, g.entities = pre ++ old_h :: post ∧ old_h ∉ pre ∧
        (g.update old_h new_h).entities = pre ++ post) := by
  refine ⟨update_name g old_h new_h, update_entities_of_not_mem g old_h new_h, ?_, ?_⟩
  · intro hmem hnew
    obtain ⟨pre, post, h1, h2, h3⟩ := update_entities_replace g old_h new_h hmem hnew
    refine ⟨pre, post, h1, h2, h3, ?_, ?_, ?_⟩
    · rw [h3, h1]; simp
    · rw [h3, List.getElem?_append_right (le_refl _)]; simp
    · intro j hj
      rw [h3, h1]
      rcases Nat.lt_or_gt_of_ne hj with hlt | hgt
      · rw [List.getElem?_append_left hlt, List.getElem?_append_left hlt]
      · rw [List.getElem?_append_right (le_of_lt hgt), List.getElem?_append_right (le_of_lt hgt)]
        obtain ⟨k, hk⟩ : ∃ k, j - pre.length = k + 1 := ⟨j - pre.length - 1, by omega⟩
        rw [hk]; simp
  · intro hmem hnew
    subst hnew
    exact update_entities_erase g old_h hmem

/-- C2, evaluated: a replacement, a removal and an absent handle, on a list in which the
retired handle occurs twice. -/
theorem NamedGroup.update_replaces_or_removes_witness :
    ((NamedGroup.mk "g" [4, 7, 5, 7]).update 7 9).entities = [4, 9, 5, 7] ∧
    ((NamedGroup.mk "g" [4, 7, 5, 7]).update 7 0).entities = [4, 5, 7] ∧
    ((NamedGroup.mk "g" [4, 7, 5, 7]).update 8 9).entities = [4, 7, 5, 7] ∧
    ((NamedGroup.mk "g" [4, 7, 5, 7]).update 7 9).getName = "g" := by
  have h := NamedGroup.update_replaces_or_removes (NamedGroup.mk "g" [4, 7, 5, 7]) 7 9
  exact ⟨by decide, by decide, by decide, h.1⟩

/-! ## `NamedGroup`: retired handles -/

/-- C1. A group to which the handle 7 was added twice still contains 7 after
`update(7, NULL)`, and after `update(7, 9)`: only the first occurrence is retired. -/
theorem NamedGroup.update_leaves_second_occurrence :
    ((((NamedGroup.new "g").add 7).add 7).update 7 0).contains 7 = true ∧
    ((((NamedGroup.new "g").add 7).add 7).update 7 0).entities = [7] ∧
    ((((NamedGroup.new "g").add 7).add 7).update 7 9).contains 7 = true ∧
    ((((NamedGroup.new "g").add 7).add 7).update 7 9).entities = [9, 7] := by
  decide

/-- C10. On a group without repeated handle: (i) `add(h)` with `h` not contained and
(ii) `update(old_h, new_h)` with `new_h` null or not contained leave the list without
repeated handle; and `update(old_h, new_h)` with `new_h` different from `old_h` leaves
`contains(old_h)` false and, when `old_h` was contained and `new_h` is non-null, makes
`contains(new_h)` true and leaves `contains(x)` as it was for every other handle `x`. -/
theorem NamedGroup.nodup_invariant (g : NamedGroup) (hnd : g.entities.Nodup) :
    (∀ h, g.contains h = false → (g.add h).entities.Nodup) ∧
    (∀ old_h new_h, (new_h = 0 ∨ g.contains new_h = false) →
      (g.update old_h new_h).entities.Nodup) ∧
    (∀ old_h new_h, new_h ≠ old_h →
      (g.update old_h new_h).contains old_h = false ∧
      (g.contains old_h = true → new_h ≠ 0 →
        (g.update old_h new_h).contains new_h = true ∧
        ∀ x, x ≠ old_h → x ≠ new_h →
          (g.update old_h new_h).contains x = g.contains x)) := by
  refine ⟨?_, ?_, ?_⟩
  · intro h hh
    rw [contains_eq_false_iff] at hh
    simp only [NamedGroup.add]
    rw [List.nodup_append]
    refine ⟨hnd, by simp, ?_⟩
    intro a ha hb
    rw [List.mem_singleton] at hb
    exact hh (hb ▸ ha)
  · intro old_h new_h hnew
    by_cases hmem : old_h ∈ g.entities
    · by_cases h0 : new_h = 0
      · subst h0
        obtain ⟨pre, post, h1, _, h3⟩ := update_entities_erase g old_h hmem
        rw [h3]
        rw [h1] at hnd
        exact hnd.sublist (List.Sublist.append_left (List.sublist_cons_self _ _) _)
      · have hn : new_h ∉ g.entities := by
          rcases hnew with h | h
          · exact absurd h h0
          · exact (contains_eq_false_iff g new_h).1 h
        obtain ⟨pre, post, h1, _, h3⟩ := update_entities_replace g old_h new_h hmem h0
        rw [h3]
        rw [h1] at hnd hn
        rw [List.nodup_append] at hnd ⊢
        simp only [List.mem_append, List.mem_cons, not_or] at hn
        obtain ⟨hpre, hpost, hdisj⟩ := hnd
        rw [List.nodup_cons] at hpost ⊢
        refine ⟨hpre, ⟨hn.2.2, hpost.2⟩, ?_⟩
        intro a ha hb
        rcases List.mem_cons.1 hb with rfl | hb
        · exact hn.1 ha
        · exact hdisj ha (List.mem_cons_of_mem _ hb)
    · rw [update_entities_of_not_mem g old_h new_h hmem]
      exact hnd
  · intro old_h new_h hne
    by_cases hmem : old_h ∈ g.entities
    · by_cases h0 : new_h = 0
      · subst h0
        obtain ⟨pre, post, h1, h2, h3⟩ := update_entities_erase g old_h hmem
        refine ⟨?_, fun _ h => absurd rfl h⟩
        rw [contains_eq_false_iff, h3]
        rw [h1, List.nodup_append] at hnd
        obtain ⟨_, hpost, _⟩ := hnd
        simp only [List.mem_append, not_or]
        exact ⟨h2, (List.nodup_cons.1 hpost).1⟩
      · obtain ⟨pre, post, h1, h2, h3⟩ := update_entities_replace g old_h new_h hmem h0
        rw [h1, List.nodup_append] at hnd
        obtain ⟨_, hpost, _⟩ := hnd
        refine ⟨?_, fun _ _ => ⟨?_, ?_⟩⟩
        · rw [contains_eq_false_iff, h3]
          simp only [List.mem_append, List.mem_cons, not_or]
          exact ⟨h2, fun h => hne h.symm, (List.nodup_cons.1 hpost).1⟩
        · rw [contains_iff_mem, h3]; simp
        · intro x hxo hxn
          rw [Bool.eq_iff_iff, contains_iff_mem, contains_iff_mem, h3, h1]
          simp [hxo, hxn]
    · refine ⟨?_, fun hc => absurd ((contains_iff_mem g old_h).1 hc) hmem⟩
      rw [contains_eq_false_iff, update_entities_of_not_mem g old_h new_h hmem]
      exact hmem

/-- C10, evaluated on the group holding 1, 2, 3: adding 4, replacing 2 by 5, removing 2. -/
theorem NamedGroup.nodup_invariant_witness :
    (NamedGroup.mk "g" [1, 2, 3]).entities.Nodup ∧
    ((NamedGroup.mk "g" [1, 2, 3]).add 4).entities.Nodup ∧
    ((NamedGroup.mk "g" [1, 2, 3]).update 2 5).entities.Nodup ∧
    ((NamedGroup.mk "g" [1, 2, 3]).update 2 0).entities.Nodup ∧
    ((NamedGroup.mk "g" [1, 2, 3]).update 2 5).contains 2 = false ∧
    ((NamedGroup.mk "g" [1, 2, 3]).update 2 5).contains 5 = true ∧
    ((NamedGroup.mk "g" [1, 2, 3]).update 2 5).contains 3 =
      (NamedGroup.mk "g" [1, 2, 3]).contains 3 :=
  have h := NamedGroup.nodup_invariant (NamedGroup.mk "g" [1, 2, 3]) (by decide)
  ⟨by decide, h.1 4 (by decide), h.2.1 2 5 (Or.inr (by decide)),
    h.2.1 2 0 (Or.inl rfl), (h.2.2 2 5 (by decide)).1,
    ((h.2.2 2 5 (by decide)).2 (by decide) (by decide)).1,
    ((h.2.2 2 5 (by decide)).2 (by decide) (by decide)).2 3 (by decide) (by decide)⟩

/-! ## Streams: extraction and decimal rendering -/

theorem dropWhile_takeWhile_of_no_space (l : List Char) (h : ∀ c ∈ l, isspace c = false) :
    (l.dropWhile isspace).takeWhile (fun c => !isspace c) = l := by
  have h1 : l.dropWhile isspace = l := by
    cases l with
    | nil => rfl
    | cons a t => simp [List.dropWhile, h a (List.mem_cons_self _ _)]
  rw [h1]
  induction l with
  | nil => rfl
  | cons a t ih =>
    have ha := h a (List.mem_cons_self _ _)
    have ht : ∀ c ∈ t, isspace c = false := fun c hc => h c (List.mem_cons_of_mem _ hc)
    have ht1 : t.dropWhile isspace = t := by
      cases t with
      | nil => rfl
      | cons b u => simp [List.dropWhile, ht b (List.mem_cons_self _ _)]
    simp [List.takeWhile, ha, ih ht ht1]

/-- Reading back a buffer without whitespace gives the whole buffer. -/
theorem extract_of_no_space (s : String) (h : no_space s = true) : extract s = s := by
  have h2 : ∀ c ∈ s.data, isspace c = false := by
    intro c hc
    have := List.all_eq_true.1 h c hc
    simpa using this
  simp only [extract, dropWhile_takeWhile_of_no_space s.data h2]

theorem no_space_append (s t : String) :
    no_space (s ++ t) = (no_space s && no_space t) := by
  simp [no_space, String.data_append, List.all_append]

theorem digitChar_facts (k : Nat) (hk : k < 10) :
    digit_value (Nat.digitChar k) = k ∧ isspace (Nat.digitChar k) = false ∧
      Nat.digitChar k ≠ '-' := by
  interval_cases k <;> decide

theorem toDigitsCore_decode (fuel : Nat) : ∀ (n : Nat) (ds : List Char), n < fuel →
    (Nat.toDigitsCore 10 fuel n ds).foldl (fun a c => a * 10 + digit_value c) 0 =
      ds.foldl (fun a c => a * 10 + digit_value c) n := by
  induction fuel with
  | zero => intro n ds h; omega
  | succ f ih =>
    intro n ds h
    simp only [Nat.toDigitsCore]
    split
    · rename_i h0
      have hn : n < 10 := by omega
      rw [Nat.mod_eq_of_lt hn]
      simp only [List.foldl, (digitChar_facts n hn).1, Nat.zero_mul, Nat.zero_add]
    · rename_i h0
      have : n / 10 < f := by omega
      rw [ih (n / 10) _ this]
      simp only [List.foldl, (digitChar_facts (n % 10) (Nat.mod_lt _ (by norm_num))).1]
      congr 1
      omega

theorem toDigitsCore_chars (fuel : Nat) : ∀ (n : Nat) (ds : List Char),
    ∀ c ∈ Nat.toDigitsCore 10 fuel n ds, c ∈ ds ∨ (isspace c = false ∧ c ≠ '-') := by
  induction fuel with
  | zero => intro n ds c hc; simp [Nat.toDigitsCore] at hc; exact Or.inl hc
  | succ f ih =>
    intro n ds c hc
    simp only [Nat.toDigitsCore] at hc
    have hd := (digitChar_facts (n % 10) (Nat.mod_lt _ (by norm_num))).2
    split at hc
    · rcases List.mem_cons.1 hc with rfl | h
      · exact Or.inr hd
      · exact Or.inl h
    · rcases ih _ _ c hc with h | h
      · rcases List.mem_cons.1 h with rfl | h
        · exact Or.inr hd
        · exact Or.inl h
      · exact Or.inr h

/-- The decimal rendering of a natural number reads back as that number. -/
theorem decode_repr (n : Nat) : decode_decimal (Nat.repr n).data = n := by
  have := toDigitsCore_decode (n + 1) n [] (Nat.lt_succ_self n)
  simpa [decode_decimal, Nat.repr, Nat.toDigits, List.asString] using this

theorem repr_chars (n : Nat) : ∀ c ∈ (Nat.repr n).data, isspace c = false ∧ c ≠ '-' := by
  intro c hc
  have hc2 : c ∈ Nat.toDigitsCore 10 (n + 1) n [] := by
    simpa [Nat.repr, Nat.toDigits, List.asString] using hc
  rcases toDigitsCore_chars (n + 1) n [] c hc2 with h | h
  · simp at h
  · exact h

theorem put_int_ofNat (m : Nat) : put_int (Int.ofNat m) = Nat.repr m := rfl

theorem put_int_negSucc (m : Nat) : put_int (Int.negSucc m) = "-" ++ Nat.repr (m + 1) := rfl

/-- The decimal rendering of an `int` holds no whitespace. -/
theorem no_space_put_int (i : Int) : no_space (put_int i) = true := by
  cases i with
  | ofNat m =>
    rw [put_int_ofNat, no_space, List.all_eq_true]
    intro c hc
    simp [(repr_chars m c hc).1]
  | negSucc m =>
    rw [put_int_negSucc, no_space_append, Bool.and_eq_true]
    refine ⟨by decide, ?_⟩
    rw [no_space, List.all_eq_true]
    intro c hc
    simp [(repr_chars (m + 1) c hc).1]

/-- Distinct `int` values have distinct decimal renderings. -/
theorem put_int_injective : Function.Injective put_int := by
  intro a b hab
  cases a with
  | ofNat m =>
    cases b with
    | ofNat k =>
      rw [put_int_ofNat, put_int_ofNat] at hab
      have := decode_repr m
      rw [hab, decode_repr] at this
      rw [this]
    | negSucc k =>
      rw [put_int_ofNat, put_int_negSucc] at hab
      have hmem : '-' ∈ (Nat.repr m).data := by rw [hab]; simp [String.data_append]
      exact absurd rfl (repr_chars m _ hmem).2
  | negSucc m =>
    cases b with
    | ofNat k =>
      rw [put_int_ofNat, put_int_negSucc] at hab
      have hmem : '-' ∈ (Nat.repr k).data := by rw [← hab]; simp [String.data_append]
      exact absurd rfl (repr_chars k _ hmem).2
    | negSucc k =>
      rw [put_int_negSucc, put_int_negSucc] at hab
      have h2 : (Nat.repr (m + 1)).data = (Nat.repr (k + 1)).data := by
        have := congrArg String.data hab
        simpa [String.data_append] using this
      have := decode_repr (m + 1)
      rw [h2, decode_repr] at this
      have hmk : m = k := by omega
      rw [hmk]

theorem append_left_cancel (p s t : String) (h : p ++ s = p ++ t) : s = t := by
  have := congrArg String.data h
  simp only [String.data_append, List.append_cancel_left_eq] at this
  exact String.ext this

/-! ## `NamedEntity`: cell-identity names -/

theorem foldl_setHandle_name (hs : List iBase_EntityHandle) (e : NamedEntity) :
    (hs.foldl NamedEntity.setHandle e).name = e.name := by
  induction hs generalizing e with
  | nil => rfl
  | cons a t ih => simp only [List.foldl, ih]; rfl

theorem foldl_setHandle_handle (hs : List iBase_EntityHandle) (e : NamedEntity) :
    (hs.foldl NamedEntity.setHandle e).handle =
      (e.handle :: hs).getLast (List.cons_ne_nil _ _) := by
  induction hs generalizing e with
  | nil => rfl
  | cons a t ih =>
    simp only [List.foldl, ih]
    rw [List.getLast_cons (List.cons_ne_nil _ _)]
    rfl

theorem makeCellIDName_name (h : iBase_EntityHandle) (ident : Int) :
    (NamedEntity.makeCellIDName h ident).name = "MCNP_ID_" ++ toString ident := by
  have hns : no_space ("MCNP_ID_" ++ put_int ident) = true := by
    rw [no_space_append, no_space_put_int]; decide
  simp only [NamedEntity.makeCellIDName, extract_of_no_space _ hns]
  rfl

/-- C8. `makeCellIDName(h, ident)` yields an entity whose handle is `h` and whose name is
`MCNP_ID_` followed by the decimal rendering of `ident`; after any sequence of `setHandle`
calls the handle is that of the last call (`h` itself when there was no call) and the name
is still `MCNP_ID_<ident>`; distinct cell numbers yield distinct names. -/
theorem NamedEntity.cell_id_name_survives (h : iBase_EntityHandle) (ident : Int) :
    (NamedEntity.makeCellIDName h ident).getHandle = h ∧
    (NamedEntity.makeCellIDName h ident).getName = "MCNP_ID_" ++ toString ident ∧
    (∀ hs : List iBase_EntityHandle,
      (hs.foldl NamedEntity.setHandle (NamedEntity.makeCellIDName h ident)).getHandle =
        (h :: hs).getLast (List.cons_ne_nil _ _) ∧
      (hs.foldl NamedEntity.setHandle (NamedEntity.makeCellIDName h ident)).getName =
        "MCNP_ID_" ++ toString ident) ∧
    (∀ (h2 : iBase_EntityHandle) (ident2 : Int), ident2 ≠ ident →
      (NamedEntity.makeCellIDName h2 ident2).getName ≠
        (NamedEntity.makeCellIDName h ident).getName) := by
  refine ⟨rfl, makeCellIDName_name h ident, ?_, ?_⟩
  · intro hs
    refine ⟨?_, ?_⟩
    · exact foldl_setHandle_handle hs _
    · simp only [NamedEntity.getName]
      rw [foldl_setHandle_name, makeCellIDName_name]
  · intro h2 ident2 hne heq
    simp only [NamedEntity.getName] at heq
    rw [makeCellIDName_name, makeCellIDName_name] at heq
    exact hne (put_int_injective (append_left_cancel _ _ _ heq))

/-- C8, evaluated: cell 12 on handle 5, then `setHandle(6)` and `setHandle(8)`. -/
theorem NamedEntity.cell_id_name_survives_witness :
    (NamedEntity.makeCellIDName 5 12).getName = "MCNP_ID_12" ∧
    ([6, 8].foldl NamedEntity.setHandle (NamedEntity.makeCellIDName 5 12)).getHandle = 8 ∧
    ([6, 8].foldl NamedEntity.setHandle (NamedEntity.makeCellIDName 5 12)).getName =
      "MCNP_ID_12" ∧
    (NamedEntity.makeCellIDName 5 (-12)).getName ≠ (NamedEntity.makeCellIDName 5 12).getName :=
  have h := NamedEntity.cell_id_name_survives 5 12
  ⟨h.2.1, (h.2.2.1 [6, 8]).1, (h.2.2.1 [6, 8]).2, h.2.2.2 5 (-12) (by decide)⟩

/-! ## `materialName` -/

/-- C5, as the code has it. When the renderings of a `double` hold no whitespace: with
`uwuw_names` set, `materialName` returns `mat:mX/rho:Y` when `rho <= 0`, `Y` being the
`%E` rendering of `-rho`, and `mat:mX/atom:Y` otherwise, `Y` being the `%E` rendering of
`rho`; with `uwuw_names` not set it returns `mat_X_rho_Y`, `Y` being the stream rendering
of `rho`. `X` is the decimal material number. -/
theorem materialName_form {D : Type} (Gopt : program_option_struct) (ops : DoubleOps D)
    (hE : ∀ d, no_space (ops.sprintf_E d) = true)
    (hP : ∀ d, no_space (ops.put_double d) = true) (mat : Int) (rho : D) :
    (Gopt.uwuw_names = true → ops.le_zero rho = true →
      materialName Gopt ops mat rho =
        "mat:m" ++ toString mat ++ "/rho:" ++ ops.sprintf_E (ops.neg rho)) ∧
    (Gopt.uwuw_names = true → ops.le_zero rho = false →
      materialName Gopt ops mat rho =
        "mat:m" ++ toString mat ++ "/atom:" ++ ops.sprintf_E rho) ∧
    (Gopt.uwuw_names = false →
      materialName Gopt ops mat rho =
        "mat_" ++ toString mat ++ "_rho_" ++ ops.put_double rho) := by
  have hi := no_space_put_int mat
  refine ⟨?_, ?_, ?_⟩
  · intro hu hle
    simp only [materialName, hu, hle, if_true, Bool.false_eq_true, if_false]
    apply extract_of_no_space
    simp only [no_space_append, hi, hE, Bool.and_true]
    decide
  · intro hu hle
    simp only [materialName, hu, hle, if_true, Bool.false_eq_true, if_false]
    apply extract_of_no_space
    simp only [no_space_append, hi, hE, Bool.and_true]
    decide
  · intro hu
    simp only [materialName, hu, Bool.false_eq_true, if_false]
    apply extract_of_no_space
    simp only [no_space_append, hi, hP, Bool.and_true]
    decide

/-- C5, evaluated on material 3 with the sample values `-2.5` and `2.5`. -/
theorem materialName_form_witness :
    materialName { Main.default_options "out.sat" with uwuw_names := true } sampleOps 3
      SampleDouble.neg_2_5 = "mat:m3/rho:2.500000E+00" ∧
    materialName { Main.default_options "out.sat" with uwuw_names := true } sampleOps 3
      SampleDouble.pos_2_5 = "mat:m3/atom:2.500000E+00" ∧
    materialName (Main.default_options "out.sat") sampleOps 3
      SampleDouble.pos_2_5 = "mat_3_rho_2.5" :=
  have hE : ∀ d, no_space (sampleOps.sprintf_E d) = true := by
    intro d; cases d <;> decide
  have hP : ∀ d, no_space (sampleOps.put_double d) = true := by
    intro d; cases d <;> decide
  ⟨(materialName_form { Main.default_options "out.sat" with uwuw_names := true } sampleOps
      hE hP 3 SampleDouble.neg_2_5).1 rfl rfl,
   (materialName_form { Main.default_options "out.sat" with uwuw_names := true } sampleOps
      hE hP 3 SampleDouble.pos_2_5).2.1 rfl rfl,
   (materialName_form (Main.default_options "out.sat") sampleOps
      hE hP 3 SampleDouble.pos_2_5).2.2 rfl⟩

/-- C5, refuted as stated: with `uwuw_names` set, the name of material 3 at density `2.5`
is `mat:m3/atom:2.500000E+00`, which is `mat:m3/rho:Y` for no `Y`; and at density `-2.5`
the value rendered after `/rho:` is `2.5`, not the density `-2.5`. -/
theorem materialName_positive_density_not_rho :
    materialName { Main.default_options "out.sat" with uwuw_names := true } sampleOps 3
      SampleDouble.pos_2_5 = "mat:m3/atom:2.500000E+00" ∧
    (¬ ∃ Y : String,
      materialName { Main.default_options "out.sat" with uwuw_names := true } sampleOps 3
        SampleDouble.pos_2_5 = "mat:m3/rho:" ++ Y) ∧
    materialName { Main.default_options "out.sat" with uwuw_names := true } sampleOps 3
      SampleDouble.neg_2_5 ≠ "mat:m3/rho:" ++ sampleOps.sprintf_E SampleDouble.neg_2_5 := by
  have h : materialName { Main.default_options "out.sat" with uwuw_names := true } sampleOps 3
      SampleDouble.pos_2_5 = "mat:m3/atom:2.500000E+00" := by decide
  refine ⟨h, ?_, by decide⟩
  rintro ⟨Y, hY⟩
  rw [h] at hY
  have := congrArg String.data hY
  simp [String.data_append] at this

/-! ## `std::map`: lookups after an assignment -/

theorem std_map.find_assign_same {κ ν : Type} [DecidableEq κ] [LinearOrder κ] (m : std_map κ ν) (k : κ)
    (v : ν) : std_map.find (std_map.assign m k v) k = some v := by
  induction m with
  | nil => simp [std_map.assign, std_map.find]
  | cons e t ih =>
    obtain ⟨k', v'⟩ := e
    simp only [std_map.assign]
    split
    · simp [std_map.find]
    · split
      · simp [std_map.find]
      · rename_i h1 h2
        have : ¬ k' = k := fun h => h2 h.symm
        simp [std_map.find, this, ih]

theorem std_map.find_assign_other {κ ν : Type} [DecidableEq κ] [LinearOrder κ] (m : std_map κ ν) (k n : κ)
    (v : ν) (hn : n ≠ k) : std_map.find (std_map.assign m k v) n = std_map.find m n := by
  have hn2 : ¬ k = n := fun h => hn h.symm
  induction m with
  | nil => simp [std_map.assign, std_map.find, hn2]
  | cons e t ih =>
    obtain ⟨k', v'⟩ := e
    simp only [std_map.assign]
    split
    · simp [std_map.find, hn2]
    · split
      · rename_i h1 h2
        subst h2
        simp [std_map.find, hn2]
      · simp only [std_map.find, ih]

theorem std_map.size_assign_of_absent {κ ν : Type} [DecidableEq κ] [LinearOrder κ] (m : std_map κ ν) (k : κ)
    (v : ν) (h : std_map.find m k = none) :
    std_map.size (std_map.assign m k v) = std_map.size m + 1 := by
  induction m with
  | nil => simp [std_map.assign, std_map.size]
  | cons e t ih =>
    obtain ⟨k', v'⟩ := e
    simp only [std_map.find] at h
    split at h
    · simp at h
    · rename_i hk
      have hk2 : ¬ k = k' := fun h => hk h.symm
      simp only [std_map.assign, hk2, if_false]
      split
      · simp [std_map.size]
      · have := ih h
        simp only [std_map.size, List.length_cons] at this ⊢
        omega

theorem std_map.index_of_present {κ ν : Type} [DecidableEq κ] [LinearOrder κ] (dflt : ν) (m : std_map κ ν)
    (k : κ) (v : ν) (h : std_map.find m k = some v) : std_map.index dflt m k = (v, m) := by
  simp [std_map.index, h]

/-! ## `getNamedGroup` -/

theorem getNamedGroup_of_present (ctx : State) (name : String) (p : Nat)
    (h : std_map.find ctx.named_groups name = some p) : getNamedGroup ctx name = (p, ctx) := by
  simp [getNamedGroup, h, std_map.index_of_present 0 _ _ _ h]

theorem getNamedGroup_of_absent (ctx : State) (name : String)
    (h : std_map.find ctx.named_groups name = none) :
    getNamedGroup ctx name =
      (ctx.heap.length + 1,
        { heap := ctx.heap ++ [NamedGroup.new name],
          named_groups := std_map.assign ctx.named_groups name (ctx.heap.length + 1) }) := by
  have h2 := std_map.find_assign_same ctx.named_groups name (ctx.heap.length + 1)
  simp [getNamedGroup, h, std_map.index_of_present 0 _ _ _ h2]

/-- C3. `getNamedGroup` creates groups lazily and never twice. When no group is registered
under the name, the call returns a pointer to a new object, the group of that name with no
entity, registered under the name; the registry has one entry more, every other name is
mapped as before and every object that existed is unchanged. When the name is mapped to a
group, the call returns it and changes nothing. A second call with the same name returns
the pointer of the first and changes nothing. -/
theorem getNamedGroup_lazy (ctx : State) (name : String) :
    (std_map.find ctx.named_groups name = none →
      ctx.deref (getNamedGroup ctx name).1 = none ∧
      (getNamedGroup ctx name).2.deref (getNamedGroup ctx name).1 =
        some { name := name, entities := [] } ∧
      std_map.find (getNamedGroup ctx name).2.named_groups name =
        some (getNamedGroup ctx name).1 ∧
      std_map.size (getNamedGroup ctx name).2.named_groups =
        std_map.size ctx.named_groups + 1 ∧
      (getNamedGroup ctx name).2.heap.length = ctx.heap.length + 1 ∧
      (∀ n, n ≠ name →
        std_map.find (getNamedGroup ctx name).2.named_groups n =
          std_map.find ctx.named_groups n) ∧
      (∀ q g, ctx.deref q = some g → (getNamedGroup ctx name).2.deref q = some g)) ∧
    (∀ p, std_map.find ctx.named_groups name = some p →
      getNamedGroup ctx name = (p, ctx)) ∧
    getNamedGroup (getNamedGroup ctx name).2 name =
      ((getNamedGroup ctx name).1, (getNamedGroup ctx name).2) := by
  refine ⟨?_, getNamedGroup_of_present ctx name, ?_⟩
  · intro h
    rw [getNamedGroup_of_absent ctx name h]
    refine ⟨?_, ?_, ?_, ?_, ?_, ?_, ?_⟩
    · simp [State.deref]
    · simp [State.deref, NamedGroup.new]
    · exact std_map.find_assign_same _ _ _
    · exact std_map.size_assign_of_absent _ _ _ h
    · simp
    · intro n hn
      exact std_map.find_assign_other _ _ _ _ hn
    · intro q g hq
      simp only [State.deref] at hq ⊢
      split at hq
      · simp at hq
      · rename_i hq0
        simp only [hq0, if_false]
        have hlt : q - 1 < ctx.heap.length := by
          by_contra hge
          rw [List.getElem?_eq_none (by omega)] at hq
          simp at hq
        rw [List.getElem?_append_left hlt]
        exact hq
  · cases h : std_map.find ctx.named_groups name with
    | none =>
      rw [getNamedGroup_of_absent ctx name h]
      exact getNamedGroup_of_present _ name _ (std_map.find_assign_same _ _ _)
    | some p =>
      rw [getNamedGroup_of_present ctx name p h]
      exact getNamedGroup_of_present ctx name p h

/-- C3, evaluated: from the empty registry, two requests for `mat_3_rho_2.5`. -/
theorem getNamedGroup_lazy_witness :
    getNamedGroup (State.mk [] []) "mat_3_rho_2.5" =
      (1, State.mk [NamedGroup.mk "mat_3_rho_2.5" []] [("mat_3_rho_2.5", 1)]) ∧
    getNamedGroup (State.mk [NamedGroup.mk "mat_3_rho_2.5" []] [("mat_3_rho_2.5", 1)])
        "mat_3_rho_2.5" =
      (1, State.mk [NamedGroup.mk "mat_3_rho_2.5" []] [("mat_3_rho_2.5", 1)]) :=
  ⟨by decide,
   (getNamedGroup_lazy (State.mk [NamedGroup.mk "mat_3_rho_2.5" []] [("mat_3_rho_2.5", 1)])
      "mat_3_rho_2.5").2.1 1 (by decide)⟩

/-! ## `std::map`: the representation invariant -/

/-- C6. With material tagging enabled, `setMaterial` makes exactly one call of
`addToVolumeGroup`, for that cell and the group named `materialName(material, density)`,
whatever `addToVolumeGroup` does; recorded in a log, the call is one entry, and two cells
with the same material number and density are requested into the group of the same name.
With material tagging disabled it makes no call and leaves the state as it is. -/
theorem setMaterial_requests {D : Type} (Gopt : program_option_struct) (ops : DoubleOps D)
    (cell : iBase_EntityHandle) (material : Int) (density : D) :
    (Gopt.tag_materials = true →
      (∀ (σ : Type) (addToVolumeGroup : iBase_EntityHandle → String → σ → σ) (s : σ),
        setMaterial Gopt ops addToVolumeGroup cell material density s =
          addToVolumeGroup cell (materialName Gopt ops material density) s) ∧
      (∀ log, setMaterial Gopt ops record_request cell material density log =
          log ++ [(cell, materialName Gopt ops material density)]) ∧
      (∀ cell2 log,
        setMaterial Gopt ops record_request cell2 material density
            (setMaterial Gopt ops record_request cell material density log) =
          log ++ [(cell, materialName Gopt ops material density),
                  (cell2, materialName Gopt ops material density)])) ∧
    (Gopt.tag_materials = false →
      ∀ (σ : Type) (addToVolumeGroup : iBase_EntityHandle → String → σ → σ) (s : σ),
        setMaterial Gopt ops addToVolumeGroup cell material density s = s) := by
  refine ⟨?_, ?_⟩
  · intro h
    refine ⟨?_, ?_, ?_⟩
    · intro σ f s
      simp [setMaterial, h]
    · intro log
      simp [setMaterial, h, record_request]
    · intro cell2 log
      simp [setMaterial, h, record_request]
  · intro h σ f s
    simp [setMaterial, h]

/-- C6, evaluated: cells 11 and 12, both of material 3 and density 2.5, with the default
options, and cell 11 again with material tagging off. -/
theorem setMaterial_requests_witness :
    setMaterial (Main.default_options "out.sat") sampleOps record_request 12 3
        SampleDouble.pos_2_5
        (setMaterial (Main.default_options "out.sat") sampleOps record_request 11 3
          SampleDouble.pos_2_5 []) =
      [(11, "mat_3_rho_2.5"), (12, "mat_3_rho_2.5")] ∧
    setMaterial { Main.default_options "out.sat" with tag_materials := false } sampleOps
        record_request 11 3 SampleDouble.pos_2_5 [] = [] :=
  ⟨((setMaterial_requests (Main.default_options "out.sat") sampleOps 11 3
        SampleDouble.pos_2_5).1 rfl).2.2 12 [],
   (setMaterial_requests { Main.default_options "out.sat" with tag_materials := false }
        sampleOps 11 3 SampleDouble.pos_2_5).2 rfl _ record_request []⟩

/-! ## `setImportances` -/

end GeometryContext

/-! ## `main`: merge without imprint, and the debug flags -/

namespace Main

open GeometryContext

theorem tolerance_warning_ne_merge_warning (t : String) :
    "Warning: you seem to have specified an unusual tolerance (" ++ t ++ ")." ≠
      merge_warning := by
  intro h
  have := congrArg String.data h
  simp [String.data_append, merge_warning] at this

theorem main_after_parse_of_open (p : Parsed) (tol_set : Bool) (out : Outside)
    (hopen : out.input_is_open = true) :
    (main_after_parse p tol_set out).status = 0 ∧
    (main_after_parse p tol_set out).debug_at_build = some (p.Gopt.debug || p.DiFlag) ∧
    (main_after_parse p tol_set out).debug_at_surfaces = some (p.Gopt.debug || p.DoFlag) ∧
    (main_after_parse p tol_set out).Gopt_at_createGeometry =
      some { p.Gopt with
        override_tolerance := if tol_set then true else p.Gopt.override_tolerance
        debug := p.Gopt.debug || p.DoFlag } := by
  obtain ⟨g, di, do_⟩ := p
  obtain ⟨v, d, e, tm, ti, tc, mg, ig, mgm, inf, outf, ini, ot, uw⟩ := g
  simp only [main_after_parse, hopen, OPT_DEBUG]
  cases d <;> cases di <;> cases do_ <;> cases tol_set <;> simp

/-- C4, as the code has it. When the input file opens, `main` reaches `createGeometry`
whatever the two options are, with `merge_geom` and `imprint_geom` as parsed: in
particular `merge_geom` is still true when merge was requested without imprint. The
warning is written to `std::cerr` exactly in that case. On the command line,
`merge_geom` is handed on true exactly when `--skip-merge` is absent and `imprint_geom`
exactly when `--skip-imprint` is absent. -/
theorem merge_without_imprint_warns_only (p : Parsed) (tol_set : Bool) (out : Outside)
    (hopen : out.input_is_open = true) :
    (main_after_parse p tol_set out).status = 0 ∧
    (merge_warning ∈ (main_after_parse p tol_set out).cerr ↔
      (p.Gopt.merge_geom = true ∧ p.Gopt.imprint_geom = false)) ∧
    (∃ g, (main_after_parse p tol_set out).Gopt_at_createGeometry = some g ∧
      g.merge_geom = p.Gopt.merge_geom ∧ g.imprint_geom = p.Gopt.imprint_geom) ∧
    (∀ (dflt : String) (cl : CommandLine),
      ∃ g, (main dflt cl out).Gopt_at_createGeometry = some g ∧
        g.merge_geom = !cl.skip_merge ∧ g.imprint_geom = !cl.skip_imprint) := by
  have h := main_after_parse_of_open p tol_set out hopen
  refine ⟨h.1, ?_, ⟨_, h.2.2.2, rfl, rfl⟩, ?_⟩
  · have hne := tolerance_warning_ne_merge_warning out.tol_text
    have hne2 : ¬ merge_warning =
        "Warning: you seem to have specified an unusual tolerance (" ++ out.tol_text ++ ")." :=
      fun e => hne e.symm
    clear h
    simp only [main_after_parse, hopen]
    cases hm : p.Gopt.merge_geom <;> cases hi : p.Gopt.imprint_geom <;>
      cases tol_set <;> cases out.tol_unusual <;> simp [hm, hi, hne2]
  · intro dflt cl
    have h2 := main_after_parse_of_open
      (parseCommandLine cl { Gopt := default_options dflt, DiFlag := false, DoFlag := false })
      cl.tol out hopen
    refine ⟨_, h2.2.2.2, ?_, ?_⟩
    · simp only [parseCommandLine, default_options]
      cases cl.skip_merge <;> rfl
    · simp only [parseCommandLine, default_options]
      cases cl.skip_imprint <;> rfl

/-- C4, evaluated: `--skip-imprint` alone and `--skip-merge` alone, the input file opening. -/
theorem merge_without_imprint_warns_only_witness :
    (main "out.sat" { no_options "deck.i" with skip_imprint := true }
      (Outside.mk false "" true)).status = 0 ∧
    (∃ g, (main_after_parse
        (Parsed.mk { default_options "out.sat" with merge_geom := false } false false)
        false (Outside.mk false "" true)).Gopt_at_createGeometry = some g ∧
      g.merge_geom = false ∧ g.imprint_geom = true) :=
  ⟨(merge_without_imprint_warns_only
      (parseCommandLine { no_options "deck.i" with skip_imprint := true }
        (Parsed.mk (default_options "out.sat") false false))
      false (Outside.mk false "" true) rfl).1,
   (merge_without_imprint_warns_only
      (Parsed.mk { default_options "out.sat" with merge_geom := false } false false)
      false (Outside.mk false "" true) rfl).2.2.1⟩

/-- C4, refuted as stated: with `--skip-imprint` given alone, the warning is written and
`createGeometry` is called with `merge_geom` still true (and `imprint_geom` false). -/
theorem skip_imprint_alone_keeps_merge_geom :
    (main "out.sat" { no_options "deck.i" with skip_imprint := true }
      (Outside.mk false "" true)).cerr = [merge_warning] ∧
    (main "out.sat" { no_options "deck.i" with skip_imprint := true }
      (Outside.mk false "" true)).Gopt_at_createGeometry.map (fun g => g.merge_geom) =
        some true ∧
    (main "out.sat" { no_options "deck.i" with skip_imprint := true }
      (Outside.mk false "" true)).Gopt_at_createGeometry.map (fun g => g.imprint_geom) =
        some false := by
  decide

/-- C9. When the input file opens: `OPT_DEBUG` is true at the call of `InputDeck::build`
exactly when `-D` or `--Di` is given; it is true at the test guarding
`debugSurfaceDistances` and at the call of `createGeometry` exactly when `-D` or `--Do`
is given. The same holds of the parsed flags, whatever set them. -/
theorem debug_flags_by_phase (dflt : String) (cl : CommandLine) (out : Outside)
    (hopen : out.input_is_open = true) :
    (main dflt cl out).debug_at_build = some (cl.debug || cl.Di) ∧
    (main dflt cl out).debug_at_surfaces = some (cl.debug || cl.Do) ∧
    (main dflt cl out).Gopt_at_createGeometry.map (fun g => OPT_DEBUG g) =
      some (cl.debug || cl.Do) ∧
    (∀ (p : Parsed) (tol_set : Bool),
      (main_after_parse p tol_set out).debug_at_build = some (p.Gopt.debug || p.DiFlag) ∧
      (main_after_parse p tol_set out).debug_at_surfaces = some (p.Gopt.debug || p.DoFlag) ∧
      (main_after_parse p tol_set out).Gopt_at_createGeometry.map (fun g => OPT_DEBUG g) =
        some (p.Gopt.debug || p.DoFlag)) := by
  have hp : ∀ (p : Parsed) (tol_set : Bool),
      (main_after_parse p tol_set out).debug_at_build = some (p.Gopt.debug || p.DiFlag) ∧
      (main_after_parse p tol_set out).debug_at_surfaces = some (p.Gopt.debug || p.DoFlag) ∧
      (main_after_parse p tol_set out).Gopt_at_createGeometry.map (fun g => OPT_DEBUG g) =
        some (p.Gopt.debug || p.DoFlag) := by
    intro p tol_set
    have h := main_after_parse_of_open p tol_set out hopen
    refine ⟨h.2.1, h.2.2.1, ?_⟩
    rw [h.2.2.2]
    rfl
  have h := hp (parseCommandLine cl
    { Gopt := default_options dflt, DiFlag := false, DoFlag := false }) cl.tol
  have e1 : (parseCommandLine cl
      { Gopt := default_options dflt, DiFlag := false, DoFlag := false }).Gopt.debug =
      cl.debug := by
    simp only [parseCommandLine, default_options]
    cases cl.debug <;> rfl
  have e2 : (parseCommandLine cl
      { Gopt := default_options dflt, DiFlag := false, DoFlag := false }).DiFlag = cl.Di := by
    simp only [parseCommandLine]
    cases cl.Di <;> rfl
  have e3 : (parseCommandLine cl
      { Gopt := default_options dflt, DiFlag := false, DoFlag := false }).DoFlag = cl.Do := by
    simp only [parseCommandLine]
    cases cl.Do <;> rfl
  rw [e1, e2, e3] at h
  exact ⟨h.1, h.2.1, h.2.2, hp⟩

/-- C9, evaluated: `--Di` alone, `--Do` alone, and both without `-D`. -/
theorem debug_flags_by_phase_witness :
    ((main "out.sat" { no_options "deck.i" with Di := true }
        (Outside.mk false "" true)).debug_at_build = some true ∧
      (main "out.sat" { no_options "deck.i" with Di := true }
        (Outside.mk false "" true)).debug_at_surfaces = some false) ∧
    ((main "out.sat" { no_options "deck.i" with Do := true }
        (Outside.mk false "" true)).debug_at_build = some false ∧
      (main "out.sat" { no_options "deck.i" with Do := true }
        (Outside.mk false "" true)).debug_at_surfaces = some true) ∧
    ((main "out.sat" { no_options "deck.i" with Di := true, Do := true }
        (Outside.mk false "" true)).debug_at_build = some true ∧
      (main "out.sat" { no_options "deck.i" with Di := true, Do := true }
        (Outside.mk false "" true)).debug_at_surfaces = some true) :=
  have h1 := debug_flags_by_phase "out.sat" { no_options "deck.i" with Di := true }
    (Outside.mk false "" true) rfl
  have h2 := debug_flags_by_phase "out.sat" { no_options "deck.i" with Do := true }
    (Outside.mk false "" true) rfl
  have h3 := debug_flags_by_phase "out.sat" { no_options "deck.i" with Di := true, Do := true }
    (Outside.mk false "" true) rfl
  ⟨⟨h1.1, h1.2.1⟩, ⟨h2.1, h2.2.1⟩, ⟨h3.1, h3.2.1⟩⟩

end Main
